import Mathlib

/-!
Shallow embedding of the statistics synchronization and view-model engine of
the gnome-l10n repository (src/gnome_l10n/api.py and src/gnome_l10n/main.py).

Modelling conventions:
* Python JSON objects are modelled by structures whose fields are `Option`s;
  a missing key is `none` and `dict.get(k, d)` is `Option.getD`.
* Python integers are `Int`; timestamps (Python floats from `time.time()`)
  are modelled as `Int` (the claims only exercise integral arithmetic).
* Python float division: `ModuleStats.pct` is the exact rational value of
  the source expression, and `ModuleStats.pctFloat` evaluates the same
  expression in IEEE binary64 (round-to-nearest, ties-to-even, implemented
  over integers so it computes by kernel reduction).
* Fallible network calls are `Except FetchError`; an on-disk file that may be
  absent or unreadable is a dedicated inductive (`CacheFile`, `SettingsFile`).
* Python `sorted` is a stable sort; it is modelled by the stable insertion
  sort `List.insertionSort` over the same key comparison (the stable sort of
  a list under a total preorder is unique, so this is extensionally faithful).
-/

namespace GnomeL10n

/-- Translation stats for one GNOME module/domain
(dataclass ModuleStats, api.py lines 57-97). -/
structure ModuleStats where
  module : String
  branch : String
  domain : String := "po"
  language : String := "sv"
  translated : Int := 0
  fuzzy : Int := 0
  untranslated : Int := 0
  state : String := ""
  po_file : String := ""
  pot_file : String := ""
deriving DecidableEq

/-- Derived property total = translated + fuzzy + untranslated (api.py 71-73). -/
def ModuleStats.total (s : ModuleStats) : Int :=
  s.translated + s.fuzzy + s.untranslated

/-- Derived property pct (api.py 75-77): translated / total * 100 if total > 0
else 0.0; the float division is modelled exactly over the rationals. -/
def ModuleStats.pct (s : ModuleStats) : ℚ :=
  if s.total > 0 then (s.translated : ℚ) / (s.total : ℚ) * 100 else 0

/-- Derived property complete (api.py 79-81). -/
def ModuleStats.complete (s : ModuleStats) : Bool :=
  decide (s.fuzzy = 0 ∧ s.untranslated = 0 ∧ 0 < s.total)

/-- Fuel-bounded floor of log2: natLog2F fuel n peels one bit per step and
is exact whenever fuel ≥ log2 n. -/
def natLog2F : Nat → Nat → Nat
  | 0, _ => 0
  | fuel + 1, n => if n < 2 then 0 else natLog2F fuel (n / 2) + 1

/-- Floor of log2 of a positive natural (0 for 0); n itself always exceeds
log2 n, so the fuel suffices for every input. -/
def natLog2 (n : Nat) : Nat :=
  natLog2F n n

/-- Round the ratio N/D (D > 0) to the nearest integer, ties to even. -/
def roundRatEven (N D : Nat) : Nat :=
  let m := N / D
  let r := N % D
  if 2 * r < D then m
  else if D < 2 * r then m + 1
  else if m % 2 = 0 then m else m + 1

/-- Round the positive ratio a/b to 53 significant bits, round-to-nearest
ties-to-even, with unbounded exponent: the result (m, e) denotes m * 2^e and
is the IEEE binary64 value of a/b whenever that value lies in the doubles'
normal range (no overflow, underflow or subnormals are modelled; every value
the statements below evaluate is normal). -/
def roundRatio53 (a b : Nat) : Nat × Int :=
  let d : Int := (natLog2 a : Int) - (natLog2 b : Int)
  let e : Int :=
    if 0 ≤ d then (if b * 2 ^ d.toNat ≤ a then d else d - 1)
    else (if b ≤ a * 2 ^ (-d).toNat then d else d - 1)
  let N := if 0 ≤ 52 - e then a * 2 ^ (52 - e).toNat else a
  let D := if 0 ≤ 52 - e then b else b * 2 ^ (e - 52).toNat
  (roundRatEven N D, e - 52)

/-- IEEE division result for a/b with a possibly zero (0/b is exactly 0). -/
def roundDiv53 (a b : Nat) : Nat × Int :=
  if a = 0 then (0, 0) else roundRatio53 a b

/-- The exact rational value denoted by the pair (m, e): m * 2^e. -/
def mulPow2 (m : Nat) (e : Int) : ℚ :=
  if 0 ≤ e then (m : ℚ) * 2 ^ e.toNat else (m : ℚ) / 2 ^ (-e).toNat

/-- Derived property pct (api.py 75-77) evaluated the way Python evaluates
it, in IEEE binary64: translated / total is the correctly rounded double of
the exact quotient (CPython int/int true division is correctly rounded), and
the product of that double with the exact constant 100.0 is correctly
rounded again.  Counts are nonnegative on the modelled domain (the data
model's invariant and these claims' hypotheses), so Int.toNat is faithful. -/
def ModuleStats.pctFloat (s : ModuleStats) : ℚ :=
  if s.total > 0 then
    let q := roundDiv53 s.translated.toNat s.total.toNat
    let p := roundRatio53 (q.1 * 100) 1
    if q.1 = 0 then 0 else mulPow2 p.1 (p.2 + q.2)
  else 0

/-- The nested statistics object of a detail response
(keys trans, fuzzy, untrans), each key possibly absent. -/
structure StatisticsObj where
  trans : Option Int := none
  fuzzy : Option Int := none
  untrans : Option Int := none
deriving DecidableEq

/-- A parsed (well-formed JSON) detail response of the remote service; every
key may be absent. -/
structure DetailResponse where
  module : Option String := none
  branch : Option String := none
  domain : Option String := none
  language : Option String := none
  state : Option String := none
  po_file : Option String := none
  pot_file : Option String := none
  statistics : Option StatisticsObj := none
deriving DecidableEq

/-- Failure modes of a remote fetch: network/timeout/non-2xx, or JSON that
does not parse. -/
inductive FetchError
  | transport
  | parse
deriving DecidableEq

/-- get_module_stats (api.py 119-135): build a ModuleStats from a parsed
detail response, defaulting every missing key — the identity fields default
to the requested module/branch/domain/language arguments. -/
def get_module_stats (module branch domain language : String)
    (data : DetailResponse) : ModuleStats :=
  let stats := data.statistics.getD {}
  { module := data.module.getD module
    branch := data.branch.getD branch
    domain := data.domain.getD domain
    language := data.language.getD language
    translated := stats.trans.getD 0
    fuzzy := stats.fuzzy.getD 0
    untranslated := stats.untrans.getD 0
    state := data.state.getD ""
    po_file := data.po_file.getD ""
    pot_file := data.pot_file.getD "" }

/-- The whole of get_module_stats including its fallible _fetch_json call:
the response is either a fetch/parse failure or a parsed JSON object, and a
well-formed response is always turned into a ModuleStats. -/
def fetch_module_stat (module branch domain language : String)
    (response : Except FetchError DetailResponse) :
    Except FetchError ModuleStats :=
  response.map (get_module_stats module branch domain language)

/-- One entry of the module list returned by get_release_stats, as consumed
by fetch_all_stats (api.py 144-153): only the keys stats, module and branch
are read. -/
structure ModuleEntry where
  module : Option String := none
  branch : Option String := none
  stats : Option String := none
deriving DecidableEq

/-- The ModuleStats constructed in the body of the fetch_all_stats loop
(api.py 152-163) from a module-list entry m and a parsed detail response d. -/
def fetchEntryStat (language : String) (m : ModuleEntry) (d : DetailResponse) :
    ModuleStats :=
  let s := d.statistics.getD {}
  { module := d.module.getD (m.module.getD "")
    branch := d.branch.getD (m.branch.getD "")
    domain := d.domain.getD "po"
    language := language
    translated := s.trans.getD 0
    fuzzy := s.fuzzy.getD 0
    untranslated := s.untrans.getD 0
    state := d.state.getD ""
    po_file := d.po_file.getD ""
    pot_file := d.pot_file.getD "" }

/-- The loop of fetch_all_stats (api.py 144-172), processing the module list
from index i on.  The oracle fetch gives each index's _fetch_json outcome.
Returns the accumulated results list and the list of progress_cb calls, both
in order.  An entry whose stats path is empty is skipped by continue BEFORE
the progress call; a failing fetch is swallowed but still reaches the
progress call (the try block ends before it). -/
def fetchLoop (language : String) (total : Nat)
    (fetch : Nat → Except FetchError DetailResponse) :
    Nat → List ModuleEntry → List ModuleStats × List (Nat × Nat)
  | _, [] => ([], [])
  | i, m :: rest =>
    let acc := fetchLoop language total fetch (i + 1) rest
    if m.stats.getD "" = "" then acc
    else
      match fetch i with
      | .ok d => (fetchEntryStat language m d :: acc.1, (i + 1, total) :: acc.2)
      | .error _ => (acc.1, (i + 1, total) :: acc.2)

/-- fetch_all_stats (api.py 138-174) given the already-fetched module list:
first component the returned results, second the sequence of progress_cb
invocations (current, total). -/
def fetch_all_stats (language : String) (modules : List ModuleEntry)
    (fetch : Nat → Except FetchError DetailResponse) :
    List ModuleStats × List (Nat × Nat) :=
  fetchLoop language modules.length fetch 0 modules

/-- The JSON object persisted by save_cache / read by load_cache
(api.py 179-184), every key possibly absent on read. -/
structure CacheData where
  release : Option String := none
  language : Option String := none
  timestamp : Option Int := none
  stats : Option (List ModuleStats) := none
deriving DecidableEq

/-- The on-disk cache file as load_cache sees it: absent, unreadable or
structurally unusable (any exception inside the try block), or a parsed
record. -/
inductive CacheFile
  | missing
  | malformed
  | record (data : CacheData)
deriving DecidableEq

/-- save_cache (api.py 177-186): the record written for (release, language)
at time now with the given stats list. -/
def save_cache (release language : String) (now : Int)
    (stats : List ModuleStats) : CacheData :=
  { release := some release
    language := some language
    timestamp := some now
    stats := some stats }

/-- load_cache (api.py 189-204) with an explicit max_age: a missing or
malformed file is a miss, a key mismatch is a miss, an age beyond max_age is
a miss (a missing timestamp key defaults to 0), otherwise the stats list
(defaulting to []) is served. -/
def load_cache (release language : String) (max_age : Int) (now : Int)
    (file : CacheFile) : Option (List ModuleStats) :=
  match file with
  | .missing => none
  | .malformed => none
  | .record data =>
    if data.release ≠ some release ∨ data.language ≠ some language then none
    else if now - data.timestamp.getD 0 > max_age then none
    else some (data.stats.getD [])

/-- A JSON scalar as stored in the settings object (the shipped keys hold
integers and strings). -/
inductive JVal
  | jint (n : Int)
  | jstr (s : String)
deriving DecidableEq

/-- DEFAULT_SETTINGS (api.py 31-35). -/
def DEFAULT_SETTINGS : List (String × JVal) :=
  [ ( "cache_ttl", JVal.jint 3600)
  , ( "default_language", JVal.jstr "sv")
  , ( "default_release", JVal.jstr "gnome-49") ]

/-- Python dict assignment d[k] = v on an association list with unique keys:
replace the first binding of k, else append. -/
def dictInsert : List (String × JVal) → String × JVal → List (String × JVal)
  | [], kv => [kv]
  | (k₁, v₁) :: rest, (k, v) =>
    if k₁ = k then (k, v) :: rest else (k₁, v₁) :: dictInsert rest (k, v)

/-- Python dict.update(stored): assign every binding of stored in order. -/
def dictUpdate (d : List (String × JVal)) (stored : List (String × JVal)) :
    List (String × JVal) :=
  stored.foldl dictInsert d

/-- Python dict lookup (first binding of the key). -/
def jlookup (k : String) : List (String × JVal) → Option JVal
  | [] => none
  | (k₁, v) :: rest => if k₁ = k then some v else jlookup k rest

/-- The settings file as load_settings sees it: absent, unreadable (any
exception while reading or parsing), or a parsed JSON object. -/
inductive SettingsFile
  | missing
  | malformed
  | obj (stored : List (String × JVal))

/-- load_settings (api.py 38-48): start from a copy of DEFAULT_SETTINGS and
dict.update it with the stored object when one can be read. -/
def load_settings : SettingsFile → List (String × JVal)
  | .missing => DEFAULT_SETTINGS
  | .malformed => DEFAULT_SETTINGS
  | .obj stored => dictUpdate DEFAULT_SETTINGS stored

/-- Python str.lower(), modelled over the string's character list (ASCII
case folding, which is what the workflow-state and module-name values use). -/
def strLower (s : String) : List Char :=
  s.data.map Char.toLower

/-- Sort key of the "state" branch of MainWindow._sort_stats (main.py 508):
(s.state or "zzz").lower().  Keys are compared as character lists under the
lexicographic (code-point) order, which is Python string comparison. -/
def stateKey (s : ModuleStats) : List Char :=
  strLower (if s.state = "" then "zzz" else s.state)

/-- MainWindow._sort_stats (main.py 490-509).  Python sorted(key=k) is the
stable ascending sort by k, modelled by insertionSort with k a ≤ k b;
sorted(key=k, reverse=True) is the stable sort under the reversed comparison,
modelled by insertionSort with k b ≤ k a. -/
def sort_stats (sort_key : String) (stats : List ModuleStats) :
    List ModuleStats :=
  if sort_key = "pct_asc" then
    stats.insertionSort (fun a b => a.pct ≤ b.pct)
  else if sort_key = "pct_desc" then
    stats.insertionSort (fun a b => b.pct ≤ a.pct)
  else if sort_key = "name_asc" then
    stats.insertionSort (fun a b => strLower a.module ≤ strLower b.module)
  else if sort_key = "name_desc" then
    stats.insertionSort (fun a b => strLower b.module ≤ strLower a.module)
  else if sort_key = "untrans_desc" then
    stats.insertionSort (fun a b => b.untranslated ≤ a.untranslated)
  else if sort_key = "fuzzy_desc" then
    stats.insertionSort (fun a b => b.fuzzy ≤ a.fuzzy)
  else if sort_key = "total_desc" then
    stats.insertionSort (fun a b => b.total ≤ a.total)
  else if sort_key = "state" then
    stats.insertionSort (fun a b => stateKey a ≤ stateKey b)
  else stats

/-- Success path of the worker thread body in MainWindow._load_stats
(main.py 549-562): once fetch_all_stats returns, the worker unconditionally
calls save_cache with the values self._release / self._language hold at
write time (they may have been changed by a later sync request — there is no
cancellation flag and no target check); on an exception nothing is written.
The result is the cache write performed, if any. -/
def do_load_worker (endRelease endLanguage : String) (now : Int)
    (fetched : Except FetchError (List ModuleStats)) : Option CacheData :=
  match fetched with
  | .ok stats => some (save_cache endRelease endLanguage now stats)
  | .error _ => none

/-! ### Sample data used in witnesses and counterexamples -/

/-- A fully populated sample entry. -/
def sampleA : ModuleStats :=
  { module := "gtk", branch := "main", domain := "po", language := "sv"
    translated := 12, fuzzy := 3, untranslated := 5, state := "Translating"
    po_file := "/POT/gtk.main.sv.po", pot_file := "/POT/gtk.main.pot" }

/-- A complete sample entry. -/
def sampleB : ModuleStats :=
  { module := "glib", branch := "main", translated := 7 }

/-! ### C4: load_cache hit/miss contract -/

/-- C4: load_cache returns the cached sequence iff a record exists, its
release and language keys equal the requested ones and now - timestamp is at
most max_age; a missing file, a malformed file, a key mismatch or a strictly
larger age give none (the embedding is a total function, so no exception
escapes); a record stamped now - ttl - 1 is a miss and one stamped
now - ttl + 1 is a hit. -/
theorem load_cache_contract (release language : String) (max_age now : Int) :
    load_cache release language max_age now CacheFile.missing = none
    ∧ load_cache release language max_age now CacheFile.malformed = none
    ∧ (∀ (d : CacheData) (ts : Int), d.timestamp = some ts →
        load_cache release language max_age now (CacheFile.record d)
          = if d.release = some release ∧ d.language = some language
                ∧ now - ts ≤ max_age
            then some (d.stats.getD []) else none)
    ∧ (∀ (ttl : Int) (stats : List ModuleStats),
        load_cache release language ttl now (CacheFile.record
          { release := some release, language := some language
            timestamp := some (now - ttl - 1), stats := some stats }) = none)
    ∧ (∀ (ttl : Int) (stats : List ModuleStats),
        load_cache release language ttl now (CacheFile.record
          { release := some release, language := some language
            timestamp := some (now - ttl + 1), stats := some stats })
          = some stats) := by
  refine ⟨rfl, rfl, ?_, ?_, ?_⟩
  · intro d ts hts
    simp only [load_cache, hts, Option.getD_some]
    by_cases h1 : d.release = some release
    · by_cases h2 : d.language = some language
      · rw [if_neg (by simp [h1, h2])]
        by_cases h3 : now - ts ≤ max_age
        · rw [if_neg (by omega), if_pos ⟨h1, h2, h3⟩]
        · rw [if_pos (by omega), if_neg (by tauto)]
      · rw [if_pos (Or.inr h2), if_neg (by tauto)]
    · rw [if_pos (Or.inl h1), if_neg (by tauto)]
  · intro ttl stats
    simp only [load_cache, Option.getD_some]
    rw [if_neg (by simp), if_pos (by omega)]
  · intro ttl stats
    simp only [load_cache, Option.getD_some]
    rw [if_neg (by simp), if_neg (by omega)]

/-- Witness for C4 at a concrete fresh record. -/
theorem load_cache_contract_witness :
    load_cache "gnome-49" "sv" 3600 50 (CacheFile.record
      { release := some "gnome-49", language := some "sv"
        timestamp := some 40, stats := some [sampleA] }) = some [sampleA] := by
  have h := (load_cache_contract "gnome-49" "sv" 3600 50).2.2.1
    { release := some "gnome-49", language := some "sv"
      timestamp := some 40, stats := some [sampleA] } 40 rfl
  simpa using h

/-! ### C5: cache round trip -/

/-- C5: a save_cache immediately followed by load_cache with a nonnegative
ttl returns exactly the written entries, every field of every entry
unchanged. -/
theorem cache_round_trip (release language : String) (ttl now : Int)
    (entries : List ModuleStats) (h : 0 ≤ ttl) :
    load_cache release language ttl now
      (CacheFile.record (save_cache release language now entries))
      = some entries := by
  simp only [load_cache, save_cache, Option.getD_some]
  rw [if_neg (by simp), if_neg (by omega)]

/-- Witness for C5 on a two-entry list. -/
theorem cache_round_trip_witness :
    (0:Int) ≤ 3600
    ∧ load_cache "gnome-49" "sv" 3600 500
        (CacheFile.record (save_cache "gnome-49" "sv" 500 [sampleA, sampleB]))
        = some [sampleA, sampleB] :=
  ⟨by decide, cache_round_trip "gnome-49" "sv" 3600 500 [sampleA, sampleB]
    (by decide)⟩

/-! ### C10: missing timestamp key defaults to the epoch -/

/-- C10: a well-formed record whose keys match but which lacks the timestamp
key is aged from 0, so whenever the current time exceeds max_age the read is
a miss rather than an exception or a fresh hit. -/
theorem load_cache_missing_timestamp (release language : String)
    (max_age now : Int) (d : CacheData) (hts : d.timestamp = none)
    (hr : d.release = some release) (hl : d.language = some language)
    (hage : max_age < now) :
    load_cache release language max_age now (CacheFile.record d) = none := by
  simp only [load_cache, hts, Option.getD_none]
  rw [if_neg (by simp [hr, hl]), if_pos (by omega)]

/-- Witness for C10 at a concrete timestamp-free record. -/
theorem load_cache_missing_timestamp_witness :
    load_cache "gnome-49" "sv" 3600 5000 (CacheFile.record
      { release := some "gnome-49", language := some "sv"
        stats := some [sampleA] }) = none :=
  load_cache_missing_timestamp "gnome-49" "sv" 3600 5000 _ rfl rfl rfl
    (by decide)

/-! ### C8: an abandoned sync still writes the cache -/

/-- Entries fetched by a sync that was started for ("gnome-49", "sv"). -/
def staleStats : List ModuleStats :=
  [ { module := "gtk", branch := "main", language := "sv", translated := 5 } ]

/-- C8 (code evaluated at the failing input): the worker of a sync whose
target was superseded mid-flight — self._release / self._language now read
"gnome-48" while the fetched entries belong to the abandoned
("gnome-49", "sv") sync — still performs a cache write, and does so under
the new key; the spec requires an abandoned sync to write nothing. -/
theorem abandoned_sync_still_writes :
    do_load_worker "gnome-48" "sv" 2000 (Except.ok staleStats)
      = some { release := some "gnome-48", language := some "sv"
               timestamp := some 2000, stats := some staleStats } := rfl

/-! ### C6: missing identity fields do not fail the detail parse -/

/-- C6 counterexample: the empty JSON object is a well-formed detail response
lacking both identity fields, yet fetch_module_stat returns a ModuleStats
(built from the requested identifiers and the documented defaults) instead of
failing with a ParseError. -/
theorem fetch_module_stat_missing_identity_counterexample :
    ({} : DetailResponse).module = none
    ∧ ({} : DetailResponse).branch = none
    ∧ fetch_module_stat "gtk" "main" "po" "sv" (Except.ok {})
        = Except.ok { module := "gtk", branch := "main"
                      domain := "po", language := "sv" } :=
  ⟨rfl, rfl, rfl⟩

/-- C6 amended: a well-formed detail response never fails, whichever keys it
lacks: missing identity fields fall back to the requested identifiers,
missing numeric statistics default to 0 and missing optional strings to the
empty string; only a transport/parse failure of the request itself is
propagated. -/
theorem fetch_module_stat_total_parse (module branch domain language : String)
    (d : DetailResponse) :
    (fetch_module_stat module branch domain language (Except.ok d)).isOk = true
    ∧ fetch_module_stat module branch domain language (Except.ok d)
        = Except.ok (get_module_stats module branch domain language d)
    ∧ (d.module = none →
        (get_module_stats module branch domain language d).module = module)
    ∧ (d.branch = none →
        (get_module_stats module branch domain language d).branch = branch)
    ∧ (d.statistics = none →
        (get_module_stats module branch domain language d).translated = 0
        ∧ (get_module_stats module branch domain language d).fuzzy = 0
        ∧ (get_module_stats module branch domain language d).untranslated = 0)
    ∧ (d.state = none →
        (get_module_stats module branch domain language d).state = "")
    ∧ (d.po_file = none →
        (get_module_stats module branch domain language d).po_file = "")
    ∧ (∀ e, fetch_module_stat module branch domain language (Except.error e)
        = Except.error e) := by
  refine ⟨rfl, rfl, ?_, ?_, ?_, ?_, ?_, fun e => rfl⟩
  all_goals intro h
  · simp [get_module_stats, h]
  · simp [get_module_stats, h]
  · simp [get_module_stats, h]
  · simp [get_module_stats, h]
  · simp [get_module_stats, h]

/-- Witness for C6 amended at the empty response. -/
theorem fetch_module_stat_total_parse_witness :
    (get_module_stats "gtk" "main" "po" "sv" {}).module = "gtk" :=
  (fetch_module_stat_total_parse "gtk" "main" "po" "sv" {}).2.2.1 rfl

/-! ### C9: bounds and completeness characterization of pct -/

/-- Dividing a positive count by itself is IEEE-exact: the double is 1.0,
here the pair (2^52, -52). -/
theorem roundDiv53_self (n : ℕ) (hn : 0 < n) :
    roundDiv53 n n = (2 ^ 52, -52) := by
  have hne : n ≠ 0 := Nat.pos_iff_ne_zero.mp hn
  have hdiv : n * 2 ^ 52 / n = 2 ^ 52 := Nat.mul_div_cancel_left _ hn
  have hmod : n * 2 ^ 52 % n = 0 := Nat.mul_mod_right n _
  simp only [roundDiv53, if_neg hne, roundRatio53, sub_self]
  norm_num [roundRatEven, hdiv, hmod, hn]
  decide

/-- An incomplete entry whose counts are large enough for double rounding to
reach 1.0: (2^54 - 1) / 2^54 is an exact round-to-nearest tie between
1 - 2^-53 and 1.0, and ties-to-even picks 1.0. -/
def hugeStat : ModuleStats :=
  { module := "gtk", branch := "main"
    translated := 2 ^ 54 - 1, fuzzy := 0, untranslated := 1 }

/-- C9 counterexample: under the program's IEEE binary64 evaluation of pct,
the incomplete entry hugeStat (one untranslated string among 2^54) yields
pct = 100.0 even though complete is false, so the claimed iff fails on the
code at this input. -/
theorem pct_float_counterexample :
    hugeStat.complete = false
    ∧ 0 ≤ hugeStat.translated ∧ 0 ≤ hugeStat.fuzzy
    ∧ 0 ≤ hugeStat.untranslated
    ∧ hugeStat.pctFloat = 100 := by
  refine ⟨by decide, by decide, by decide, by decide, ?_⟩
  have hT : hugeStat.total > 0 := by decide
  have h1 : roundDiv53 hugeStat.translated.toNat hugeStat.total.toNat
      = (2 ^ 53, -53) := by decide
  have h2 : roundRatio53 900719925474099200 1 = (7036874417766400, 7) := by
    decide
  simp only [ModuleStats.pctFloat, if_pos hT, h1]
  norm_num [mulPow2, h2]
  rw [show Int.toNat 46 = 46 from rfl]
  norm_num

/-- C9 amended: with nonnegative counts, the exact rational value of
translated / total * 100 (ModuleStats.pct, no rounding) lies between 0 and
100 and equals 100 exactly when the entry is complete; under the program's
IEEE binary64 evaluation (ModuleStats.pctFloat), completeness still forces
pct = 100.0, but the converse direction fails once counts reach the 2^53
scale, where double rounding can return 100.0 for an incomplete entry. -/
theorem pct_bounds_complete (s : ModuleStats) (ht : 0 ≤ s.translated)
    (hf : 0 ≤ s.fuzzy) (hu : 0 ≤ s.untranslated) :
    (0 ≤ s.pct ∧ s.pct ≤ 100
      ∧ (s.pct = 100 ↔ (s.fuzzy = 0 ∧ s.untranslated = 0 ∧ 0 < s.total)))
    ∧ (s.complete = true → s.pctFloat = 100) := by
  refine ⟨?_, ?_⟩
  by_cases hT : 0 < s.total
  · have hT' : (0:ℚ) < (s.total : ℚ) := by exact_mod_cast hT
    have hle : s.translated ≤ s.total := by
      simp only [ModuleStats.total]; omega
    have htT : (s.translated : ℚ) ≤ (s.total : ℚ) := by exact_mod_cast hle
    have ht' : (0:ℚ) ≤ (s.translated : ℚ) := by exact_mod_cast ht
    have hpct : s.pct = (s.translated : ℚ) / (s.total : ℚ) * 100 := by
      simp [ModuleStats.pct, hT]
    refine ⟨?_, ?_, ?_⟩
    · rw [hpct]
      exact mul_nonneg (div_nonneg ht' hT'.le) (by norm_num)
    · rw [hpct]
      have hdiv : (s.translated : ℚ) / (s.total : ℚ) ≤ 1 :=
        (div_le_one hT').mpr htT
      calc (s.translated : ℚ) / (s.total : ℚ) * 100
          ≤ 1 * 100 := by
            exact mul_le_mul_of_nonneg_right hdiv (by norm_num)
        _ = 100 := one_mul 100
    · rw [hpct]
      constructor
      · intro hq
        have h1 : (s.translated : ℚ) / (s.total : ℚ) = 1 := by
          have : (s.translated : ℚ) / (s.total : ℚ) * 100 = 1 * 100 := by
            rw [hq, one_mul]
          exact mul_right_cancel₀ (by norm_num) this
        have h2 : (s.translated : ℚ) = (s.total : ℚ) :=
          (div_eq_one_iff_eq hT'.ne').mp h1
        have h3 : s.translated = s.total := by exact_mod_cast h2
        have h4 : s.fuzzy = 0 ∧ s.untranslated = 0 := by
          simp only [ModuleStats.total] at h3; constructor <;> omega
        exact ⟨h4.1, h4.2, hT⟩
      · intro ⟨h1, h2, _⟩
        have h3 : s.translated = s.total := by
          simp only [ModuleStats.total, h1, h2]; ring
        rw [h3, div_self hT'.ne', one_mul]
  · have hz : s.total = 0 := by
      simp only [ModuleStats.total] at hT ⊢; omega
    have hpct : s.pct = 0 := by simp [ModuleStats.pct, hT]
    refine ⟨by rw [hpct], by rw [hpct]; norm_num, ?_⟩
    rw [hpct]
    constructor
    · intro h; norm_num at h
    · intro ⟨_, _, h⟩; exact absurd h hT
  intro hc
  simp only [ModuleStats.complete, decide_eq_true_eq] at hc
  obtain ⟨hf0, hu0, hTc⟩ := hc
  have htt : s.total = s.translated := by
    simp only [ModuleStats.total, hf0, hu0]; ring
  have hpos : 0 < s.translated.toNat := by
    rw [htt] at hTc; omega
  have hq : roundDiv53 s.translated.toNat s.total.toNat
      = (2 ^ 52, -52) := by
    rw [htt]; exact roundDiv53_self _ hpos
  have h2 : roundRatio53 450359962737049600 1 = (7036874417766400, 6) := by
    decide
  simp only [ModuleStats.pctFloat, if_pos hTc, hq]
  norm_num [mulPow2, h2]
  rw [show Int.toNat 46 = 46 from rfl]
  norm_num

/-- Witness for C9 at a concrete complete entry. -/
theorem pct_bounds_complete_witness :
    (0 ≤ sampleB.translated ∧ 0 ≤ sampleB.fuzzy ∧ 0 ≤ sampleB.untranslated)
    ∧ ((0 ≤ sampleB.pct ∧ sampleB.pct ≤ 100
        ∧ (sampleB.pct = 100
            ↔ (sampleB.fuzzy = 0 ∧ sampleB.untranslated = 0
                ∧ 0 < sampleB.total)))
      ∧ (sampleB.complete = true → sampleB.pctFloat = 100)) :=
  ⟨⟨by decide, by decide, by decide⟩,
   pct_bounds_complete sampleB (by decide) (by decide) (by decide)⟩

/-! ### C7: settings merge -/

/-- Looking up a key that is absent from an association list gives none. -/
theorem jlookup_eq_none (k : String) (l : List (String × JVal))
    (h : k ∉ l.map Prod.fst) : jlookup k l = none := by
  induction l with
  | nil => rfl
  | cons kv rest ih =>
    obtain ⟨k₁, v₁⟩ := kv
    simp only [List.map_cons, List.mem_cons, not_or] at h
    rw [jlookup, if_neg (fun he => h.1 he.symm)]
    exact ih h.2

/-- Assigning a key makes it present with the assigned value. -/
theorem jlookup_dictInsert_self (d : List (String × JVal)) (k : String)
    (v : JVal) : jlookup k (dictInsert d (k, v)) = some v := by
  induction d with
  | nil => simp [dictInsert, jlookup]
  | cons kv rest ih =>
    obtain ⟨k₁, v₁⟩ := kv
    by_cases h : k₁ = k
    · simp [dictInsert, h, jlookup]
    · simp [dictInsert, h, jlookup, ih]

/-- Assigning one key leaves every other key's binding unchanged. -/
theorem jlookup_dictInsert_ne (d : List (String × JVal)) (k k₁ : String)
    (v : JVal) (h : k₁ ≠ k) :
    jlookup k (dictInsert d (k₁, v)) = jlookup k d := by
  induction d with
  | nil => simp [dictInsert, jlookup, h]
  | cons kv rest ih =>
    obtain ⟨k₂, v₂⟩ := kv
    by_cases h2 : k₂ = k₁
    · subst h2
      simp [dictInsert, jlookup, h]
    · simp only [dictInsert, if_neg h2, jlookup, ih]

/-- Looking up in dict(d).update(stored): the stored binding wins when the
key is present in stored, otherwise the base binding shows through. -/
theorem jlookup_dictUpdate (stored : List (String × JVal)) :
    ∀ (d : List (String × JVal)) (k : String),
      ((stored.map Prod.fst).Nodup) →
      jlookup k (dictUpdate d stored)
        = match jlookup k stored with
          | some v => some v
          | none => jlookup k d := by
  induction stored with
  | nil => intro d k _; simp [dictUpdate, jlookup]
  | cons kv rest ih =>
    intro d k hnd
    obtain ⟨k₁, v₁⟩ := kv
    simp only [List.map_cons, List.nodup_cons] at hnd
    have hstep : dictUpdate d ((k₁, v₁) :: rest)
        = dictUpdate (dictInsert d (k₁, v₁)) rest := rfl
    rw [hstep, ih _ k hnd.2]
    by_cases h : k₁ = k
    · subst h
      rw [jlookup_eq_none k₁ rest hnd.1]
      simp [jlookup, jlookup_dictInsert_self]
    · simp only [jlookup, if_neg h]
      cases jlookup k rest with
      | none => simp [jlookup_dictInsert_ne d k k₁ v₁ h]
      | some v => rfl

/-- C7 counterexample: a stored object holding only an unknown key yields a
loaded configuration in which that unknown key is present with its stored
value — unknown keys are copied by dict.update, not ignored. -/
theorem load_settings_unknown_key_counterexample :
    jlookup "favorite_color"
      (load_settings (SettingsFile.obj [ ( "favorite_color", JVal.jstr "red") ]))
      = some (JVal.jstr "red") := by decide

/-- C7 amended: after a load, every key present in the stored object — known
or unknown — carries its stored value, and every absent key carries its
DEFAULT_SETTINGS binding; in particular the three known keys take the stored
value when present and their default when absent, and unknown keys do not
affect them, but unknown keys do appear in the loaded configuration. -/
theorem load_settings_merge (stored : List (String × JVal))
    (hnd : (stored.map Prod.fst).Nodup) :
    (∀ k v, jlookup k stored = some v →
        jlookup k (load_settings (SettingsFile.obj stored)) = some v)
    ∧ (∀ k, jlookup k stored = none →
        jlookup k (load_settings (SettingsFile.obj stored))
          = jlookup k DEFAULT_SETTINGS)
    ∧ jlookup "cache_ttl" DEFAULT_SETTINGS = some (JVal.jint 3600)
    ∧ jlookup "default_language" DEFAULT_SETTINGS = some (JVal.jstr "sv")
    ∧ jlookup "default_release" DEFAULT_SETTINGS
        = some (JVal.jstr "gnome-49") := by
  refine ⟨?_, ?_, by decide, by decide, by decide⟩
  · intro k v h
    rw [load_settings, jlookup_dictUpdate stored DEFAULT_SETTINGS k hnd, h]
  · intro k h
    rw [load_settings, jlookup_dictUpdate stored DEFAULT_SETTINGS k hnd, h]

/-- Witness for C7 amended: a stored default_language overrides the default,
and an absent cache_ttl falls back to its default. -/
theorem load_settings_merge_witness :
    jlookup "default_language"
      (load_settings (SettingsFile.obj [ ( "default_language", JVal.jstr "da") ]))
      = some (JVal.jstr "da")
    ∧ jlookup "cache_ttl"
        (load_settings (SettingsFile.obj [ ( "default_language", JVal.jstr "da") ]))
        = jlookup "cache_ttl" DEFAULT_SETTINGS :=
  ⟨(load_settings_merge [ ( "default_language", JVal.jstr "da") ] (by decide)).1
      "default_language" (JVal.jstr "da") (by decide),
   (load_settings_merge [ ( "default_language", JVal.jstr "da") ] (by decide)).2.1
      "cache_ttl" (by decide)⟩

/-! ### C1: the state sort order -/

/-- An entry whose non-empty state compares above the "zzz" sentinel. -/
def zzStat : ModuleStats :=
  { module := "aaa", branch := "main", state := "zzzz" }

/-- An entry with no workflow state. -/
def emptyStateStat : ModuleStats :=
  { module := "bbb", branch := "main", state := "" }

/-- C1 counterexample: sorting by state maps the empty state to the literal
sentinel "zzz", and the real state "zzzz" case-folds above it, so the
empty-state entry is placed BEFORE that non-empty-state entry — not after
every non-empty entry as claimed. -/
theorem sort_stats_state_counterexample :
    zzStat.state ≠ "" ∧ emptyStateStat.state = ""
    ∧ sort_stats "state" [zzStat, emptyStateStat]
        = [emptyStateStat, zzStat] := by
  exact ⟨by decide, rfl, by decide⟩

/-- C1 amended: sorting by state is the stable ascending sort by the key
case-folded state with the empty state replaced by the sentinel "zzz": the
output is a permutation of the input, pairwise ordered by that key (so
non-empty states are ordered among themselves case-insensitively), entries
with equal keys keep their original relative order, and an empty-state entry
precedes only entries whose key is at least the sentinel — so empty states
sort after exactly those real states that case-fold below "zzz", not after
all of them. -/
theorem sort_stats_state_amended (l : List ModuleStats) :
    (sort_stats "state" l).Perm l
    ∧ (sort_stats "state" l).Sorted (fun a b => stateKey a ≤ stateKey b)
    ∧ (∀ a b : ModuleStats, stateKey a = stateKey b →
        [a, b].Sublist l → [a, b].Sublist (sort_stats "state" l))
    ∧ (∀ i j : Fin (sort_stats "state" l).length, i < j →
        ((sort_stats "state" l).get i).state = "" →
        ¬ stateKey ((sort_stats "state" l).get j) < strLower "zzz") := by
  have he : sort_stats "state" l
      = l.insertionSort (fun a b => stateKey a ≤ stateKey b) := rfl
  haveI ht : IsTotal ModuleStats (fun a b => stateKey a ≤ stateKey b) :=
    ⟨fun a b => le_total _ _⟩
  haveI htr : IsTrans ModuleStats (fun a b => stateKey a ≤ stateKey b) :=
    ⟨fun _ _ _ hab hbc => le_trans hab hbc⟩
  have hsorted : (sort_stats "state" l).Sorted
      (fun a b => stateKey a ≤ stateKey b) := by
    rw [he]; exact List.sorted_insertionSort _ l
  refine ⟨?_, hsorted, ?_, ?_⟩
  · rw [he]; exact List.perm_insertionSort _ l
  · intro a b hk hsub
    rw [he]
    exact List.pair_sublist_insertionSort (le_of_eq hk) hsub
  · intro i j hij hempty
    have hle := List.Sorted.rel_get_of_lt hsorted hij
    have hkey : stateKey ((sort_stats "state" l).get i) = strLower "zzz" := by
      unfold stateKey
      rw [if_pos hempty]
    rw [hkey] at hle
    exact fun hlt => absurd hle (not_le.mpr hlt)

/-- Two entries whose states differ only in case: a tie under the fold. -/
def tieA : ModuleStats :=
  { module := "alpha", branch := "main", state := "Translated" }

/-- The second member of the tie. -/
def tieB : ModuleStats :=
  { module := "beta", branch := "main", state := "translated" }

/-- Witness for C1 amended: a concrete case-fold tie keeps its original
order through the sort. -/
theorem sort_stats_state_amended_witness :
    [tieA, tieB].Sublist (sort_stats "state" [tieA, sampleA, tieB]) :=
  (sort_stats_state_amended [tieA, sampleA, tieB]).2.2.1 tieA tieB
    (by decide) (by decide)

/-! ### C2 and C3: the fetch_all_stats loop -/

/-- A module-list entry carrying a stats resource path. -/
def entryWithStats : ModuleEntry :=
  { module := some "gtk", branch := some "main", stats := some "/module/gtk" }

/-- A second module-list entry carrying a stats resource path. -/
def entryWithStats2 : ModuleEntry :=
  { module := some "glib", branch := some "main", stats := some "/module/glib" }

/-- A module-list entry with no stats resource path (skipped by continue). -/
def entryNoStats : ModuleEntry :=
  { module := some "gjs", branch := some "main", stats := none }

/-- A fetch oracle whose second request fails. -/
def fetchSecondFails : Nat → Except FetchError DetailResponse :=
  fun j => if j = 0 then Except.ok {} else Except.error FetchError.transport

/-- When every remaining entry has a stats path, the loop emits exactly one
progress call per entry, with first components i+1, i+2, ... -/
theorem fetchLoop_progress_all (language : String) (total : Nat)
    (fetch : Nat → Except FetchError DetailResponse) :
    ∀ (rest : List ModuleEntry) (i : Nat),
      (∀ m ∈ rest, m.stats.getD "" ≠ "") →
      (fetchLoop language total fetch i rest).2
        = (List.range' (i + 1) rest.length).map (fun c => (c, total)) := by
  intro rest
  induction rest with
  | nil => intro i _; rfl
  | cons m rest ih =>
    intro i h
    have hm : m.stats.getD "" ≠ "" := h m (List.mem_cons_self m rest)
    have hrest : ∀ m' ∈ rest, m'.stats.getD "" ≠ "" :=
      fun m' hm' => h m' (List.mem_cons_of_mem m hm')
    cases hf : fetch i with
    | ok d =>
      simp only [fetchLoop, if_neg hm, hf, List.length_cons, List.range'_succ,
        List.map_cons]
      rw [ih (i + 1) hrest]
    | error e =>
      simp only [fetchLoop, if_neg hm, hf, List.length_cons, List.range'_succ,
        List.map_cons]
      rw [ih (i + 1) hrest]

/-- C2 counterexample: with two listed modules of which the second has no
stats path, the loop's continue skips the progress call for that module, so
the only notification is (1, 2) and the final notification is not
(total_count, total_count). -/
theorem fetch_all_stats_progress_counterexample :
    (fetch_all_stats "sv" [entryWithStats, entryNoStats]
        (fun _ => Except.ok {})).2 = [ (1, 2) ]
    ∧ (fetch_all_stats "sv" [entryWithStats, entryNoStats]
        (fun _ => Except.ok {})).2.getLast? ≠ some (2, 2) :=
  ⟨by decide, by decide⟩

/-- C2 amended: when every listed module has a non-empty stats path, the
progress callback is invoked once after each module's attempt — success or
failure — with (index + 1, total_count), the first components strictly
increasing, and the final invocation is (total_count, total_count); a module
with no stats path is skipped without a notification. -/
theorem fetch_all_stats_progress (language : String)
    (modules : List ModuleEntry)
    (fetch : Nat → Except FetchError DetailResponse)
    (h : ∀ m ∈ modules, m.stats.getD "" ≠ "") :
    (fetch_all_stats language modules fetch).2
      = (List.range' 1 modules.length).map (fun c => (c, modules.length))
    ∧ (fetch_all_stats language modules fetch).2.Pairwise
        (fun p q => p.1 < q.1)
    ∧ (modules ≠ [] →
        (fetch_all_stats language modules fetch).2.getLast?
          = some (modules.length, modules.length)) := by
  have hmain : (fetch_all_stats language modules fetch).2
      = (List.range' 1 modules.length).map (fun c => (c, modules.length)) :=
    fetchLoop_progress_all language modules.length fetch modules 0 h
  refine ⟨hmain, ?_, ?_⟩
  · rw [hmain]
    exact (List.pairwise_lt_range' 1 modules.length 1 (by simp)).map _
      (fun a b hab => hab)
  · intro hne
    have hn : modules.length ≠ 0 :=
      fun h0 => hne (List.length_eq_zero.mp h0)
    rw [hmain, List.getLast?_map, List.getLast?_range', if_neg hn]
    have : 1 + modules.length - 1 = modules.length := by omega
    rw [this, Option.map_some']

/-- Witness for C2 amended: two modules with stats paths, the second fetch
failing, still produce the full progress sequence (1,2), (2,2). -/
theorem fetch_all_stats_progress_witness :
    (fetch_all_stats "sv" [entryWithStats, entryWithStats2]
        fetchSecondFails).2
      = (List.range' 1 2).map (fun c => (c, 2)) :=
  (fetch_all_stats_progress "sv" [entryWithStats, entryWithStats2]
    fetchSecondFails (by decide)).1

/-- When every remaining entry has a stats path, the loop's results are the
successfully fetched entries in fetch order, failures omitted. -/
theorem fetchLoop_results_all (language : String) (total : Nat)
    (fetch : Nat → Except FetchError DetailResponse) :
    ∀ (rest : List ModuleEntry) (i : Nat),
      (∀ m ∈ rest, m.stats.getD "" ≠ "") →
      (fetchLoop language total fetch i rest).1
        = (rest.enumFrom i).filterMap (fun p =>
            match fetch p.1 with
            | .ok d => some (fetchEntryStat language p.2 d)
            | .error _ => none) := by
  intro rest
  induction rest with
  | nil => intro i _; rfl
  | cons m rest ih =>
    intro i h
    have hm : m.stats.getD "" ≠ "" := h m (List.mem_cons_self m rest)
    have hrest : ∀ m' ∈ rest, m'.stats.getD "" ≠ "" :=
      fun m' hm' => h m' (List.mem_cons_of_mem m hm')
    cases hf : fetch i with
    | ok d =>
      simp only [fetchLoop, if_neg hm, hf, List.enumFrom, List.filterMap_cons]
      rw [ih (i + 1) hrest]
    | error e =>
      simp only [fetchLoop, if_neg hm, hf, List.enumFrom, List.filterMap_cons]
      rw [ih (i + 1) hrest]

/-- When every remaining entry has a stats path, the number of results plus
the number of failing fetches is the number of entries. -/
theorem fetchLoop_length_all (language : String) (total : Nat)
    (fetch : Nat → Except FetchError DetailResponse) :
    ∀ (rest : List ModuleEntry) (i : Nat),
      (∀ m ∈ rest, m.stats.getD "" ≠ "") →
      (fetchLoop language total fetch i rest).1.length
        + (List.range' i rest.length).countP (fun j => !(fetch j).isOk)
        = rest.length := by
  intro rest
  induction rest with
  | nil => intro i _; rfl
  | cons m rest ih =>
    intro i h
    have hm : m.stats.getD "" ≠ "" := h m (List.mem_cons_self m rest)
    have hrest : ∀ m' ∈ rest, m'.stats.getD "" ≠ "" :=
      fun m' hm' => h m' (List.mem_cons_of_mem m hm')
    have hih := ih (i + 1) hrest
    cases hf : fetch i with
    | ok d =>
      have hq : (!(Except.ok d : Except FetchError DetailResponse).isOk)
          = false := rfl
      simp only [fetchLoop, if_neg hm, hf, List.length_cons, List.range'_succ,
        List.countP_cons, hq, Bool.false_eq_true, if_false]
      omega
    | error e =>
      have hq : (!(Except.error e : Except FetchError DetailResponse).isOk)
          = true := rfl
      simp only [fetchLoop, if_neg hm, hf, List.length_cons, List.range'_succ,
        List.countP_cons, hq, eq_self_iff_true, if_true]
      omega

/-- C3: with n listed modules all carrying stats paths and k failing detail
fetches, the sync is not aborted: the result is exactly the n - k
successfully fetched entries in fetch order, and the subsequent save_cache
persists exactly that partial sequence. -/
theorem fetch_all_stats_failures_omitted (release language : String) (now : Int)
    (modules : List ModuleEntry)
    (fetch : Nat → Except FetchError DetailResponse)
    (h : ∀ m ∈ modules, m.stats.getD "" ≠ "") :
    (fetch_all_stats language modules fetch).1
      = (modules.enumFrom 0).filterMap (fun p =>
          match fetch p.1 with
          | .ok d => some (fetchEntryStat language p.2 d)
          | .error _ => none)
    ∧ (fetch_all_stats language modules fetch).1.length
        = modules.length
          - (List.range modules.length).countP (fun j => !(fetch j).isOk)
    ∧ (save_cache release language now
          (fetch_all_stats language modules fetch).1).stats
        = some (fetch_all_stats language modules fetch).1 := by
  have hres : (fetch_all_stats language modules fetch).1
      = (modules.enumFrom 0).filterMap (fun p =>
          match fetch p.1 with
          | .ok d => some (fetchEntryStat language p.2 d)
          | .error _ => none) :=
    fetchLoop_results_all language modules.length fetch modules 0 h
  have hlen : (fetch_all_stats language modules fetch).1.length
      + (List.range' 0 modules.length).countP (fun j => !(fetch j).isOk)
      = modules.length :=
    fetchLoop_length_all language modules.length fetch modules 0 h
  refine ⟨hres, ?_, rfl⟩
  rw [List.range_eq_range']
  omega

/-- Witness for C3: two modules of which the second detail fetch fails give
exactly one result entry — the spec's end-to-end scenario 1. -/
theorem fetch_all_stats_failures_omitted_witness :
    (fetch_all_stats "sv" [entryWithStats, entryWithStats2]
        fetchSecondFails).1.length = 1 := by
  have h := (fetch_all_stats_failures_omitted "gnome-49" "sv" 100
    [entryWithStats, entryWithStats2] fetchSecondFails (by decide)).2.1
  rw [h]
  decide

end GnomeL10n
